import Mathlib

/-!
Shallow embedding of the taurus-game-server-lb load balancer
(`main.go`, `serverpool.go`, and the backend record file).

Machine integers: the Go `uint64` round-robin cursor is modelled as a
`Nat` reduced modulo `2 ^ 64` exactly where the source performs
`uint64` arithmetic.  Go `int` room/shard arithmetic is modelled as
`Int`, with division truncating toward zero as in Go.

Panics: Go operations that can panic (slice indexing out of range) are
modelled with `Except String`, the error carrying the panic kind.
-/

/-- One upstream server (the `Backend` record).  The two reverse proxies
carry no routing-relevant state of their own, so the record keeps the
URL (as its normalized string, which is exactly what `MarkBackendStatus`
compares) and the liveness flag; the mutex around the flag is irrelevant
in this sequential model. -/
structure Backend where
  URL : String
  Alive : Bool
deriving DecidableEq

/-- `ServerPool` from `serverpool.go`: the ordered backend slice plus the
`current` cursor, a Go `uint64` stored here already reduced mod `2 ^ 64`. -/
structure ServerPool where
  backends : List Backend
  current : Nat
deriving DecidableEq

/-- `NextIndex` from `serverpool.go`: `atomic.AddUint64(&s.current, 1)`
wraps modulo `2 ^ 64` and stores the wrapped value; the returned index is
that value modulo the pool size.  (Go panics on `% 0` for an empty pool;
the theorems below about this function assume a non-empty pool, matching
the spec's startup invariant.) -/
def NextIndex (s : ServerPool) : Nat × ServerPool :=
  let cur := (s.current + 1) % 2 ^ 64
  (cur % s.backends.length, { s with current := cur })

/-- The scan loop of `GetNextPeer`: starting at absolute loop position `i`,
try `k` successive positions (each reduced modulo the pool size) and
return the first absolute position whose backend is alive. -/
def findAliveIdx (bs : List Backend) : Nat → Nat → Option Nat
  | _, 0 => none
  | i, k + 1 =>
    match bs.get? (i % bs.length) with
    | some b => if b.Alive then some i else findAliveIdx bs (i + 1) k
    | none => none

/-- `GetNextPeer` from `serverpool.go`: one full cycle starting at
`NextIndex`, returning the first alive backend; when the hit is not at
the raw next index the cursor is re-pointed at the hit's position. -/
def GetNextPeer (s : ServerPool) : Option Backend × ServerPool :=
  let p := NextIndex s
  match findAliveIdx p.2.backends p.1 p.2.backends.length with
  | some i =>
    let idx := i % p.2.backends.length
    let s₂ := if i = p.1 then p.2 else { p.2 with current := idx }
    (p.2.backends.get? idx, s₂)
  | none => (none, p.2)

/-- Helper of `MarkBackendStatus`: set the liveness of the first backend
whose URL string matches, leaving the rest untouched (the source loop
breaks at the first match). -/
def markFirst (url : String) (alive : Bool) : List Backend → List Backend
  | [] => []
  | b :: t =>
    if b.URL = url then { b with Alive := alive } :: t
    else b :: markFirst url alive t

/-- `MarkBackendStatus` from `serverpool.go`: linear scan by URL string,
setting the first match's liveness flag. -/
def MarkBackendStatus (s : ServerPool) (url : String) (alive : Bool) : ServerPool :=
  { s with backends := markFirst url alive s.backends }

/-- Go slice indexing `xs[i]`: panics unless `0 ≤ i < len(xs)`. -/
def goIndex {α : Type} (xs : List α) (i : Int) : Except String α :=
  if h : 0 ≤ i ∧ i.toNat < xs.length then .ok (xs.get ⟨i.toNat, h.2⟩)
  else .error ("runtime error: index out of range")

/-- `GetPeer` from `serverpool.go` (sticky selection): `serverId` is the Go
`int` division `(roomId - 1) / 10000`, truncating toward zero; the bound
check in the source is `serverId <= len(s.backends)` — not strict — after
which the slice is indexed. -/
def GetPeer (s : ServerPool) (roomId : Int) : Except String (Option Backend) :=
  let serverId := Int.tdiv (roomId - 1) 10000
  if serverId ≤ (s.backends.length : Int) then
    Except.map some (goIndex s.backends serverId)
  else
    .ok none

/-- `GetAttemptsFromContext` from `main.go`: the request context's attempts
value, or 1 when the request carries none (a fresh, never re-dispatched
request). -/
def GetAttemptsFromContext (ctx : Option Nat) : Nat :=
  match ctx with
  | some attempts => attempts
  | none => 1

/-- `GetRetryFromContext` from `main.go`: the request context's retry
value, or 0 when the request carries none. -/
def GetRetryFromContext (ctx : Option Nat) : Nat :=
  match ctx with
  | some retry => retry
  | none => 0

/-- ASCII digit test, the regexp character class `[0-9]`. -/
def isDigit (c : Char) : Bool := decide ('0' ≤ c) && decide (c ≤ '9')

/-- Does a match of the pattern `/room/[0-9]+(/.+)*` start at the head of
this character list?  The group `(/.+)*` may match the empty string and
`[0-9]+` needs one digit, so a match starts here exactly when the list
begins with `/room/` followed by a digit. -/
def roomActionAt : List Char → Bool
  | '/' :: 'r' :: 'o' :: 'o' :: 'm' :: '/' :: c :: _ => isDigit c
  | _ => false

/-- `roomAction.MatchString path` from `main.go`.  Go regexp matching is
unanchored: it reports whether a match of `/room/[0-9]+(/.+)*` starts at
any position of the path. -/
def roomActionMatch : List Char → Bool
  | [] => false
  | c :: t => roomActionAt (c :: t) || roomActionMatch t

/-- Does a match of the pattern `/ws/[0-9]` start at the head of this
character list? -/
def roomConnAt : List Char → Bool
  | '/' :: 'w' :: 's' :: '/' :: c :: _ => isDigit c
  | _ => false

/-- `roomConnection.MatchString path` from `main.go`: unanchored matching
of the pattern `/ws/[0-9]`. -/
def roomConnMatch : List Char → Bool
  | [] => false
  | c :: t => roomConnAt (c :: t) || roomConnMatch t

/-- Go `strings.Split` on a one-character separator. -/
def splitOnChar (sep : Char) : List Char → List (List Char)
  | [] => [[]]
  | c :: rest =>
    let r := splitOnChar sep rest
    if c = sep then [] :: r
    else
      match r with
      | [] => [[c]]
      | h :: t => (c :: h) :: t

/-- Decimal value of a digit list. -/
def digitsVal (l : List Char) : Nat :=
  l.foldl (fun acc c => acc * 10 + (c.toNat - ('0').toNat)) 0

/-- Go `strconv.Atoi` with its error discarded, as `lb` uses it
(`roomId, _ := strconv.Atoi(s[2])`): a string of one or more digits
parses to its value, anything else yields 0 together with the discarded
error.  (Atoi's int64-overflow clamping is not modelled; no theorem below
evaluates it on an input of 19 or more digits.) -/
def atoi (l : List Char) : Int :=
  if l ≠ [] && l.all isDigit then (digitsVal l : Int) else 0

/-- A write or forward performed by the dispatcher, in order: forwarding a
request to a backend on one of the two schemes, marking a backend dead,
or writing an HTTP error status to the client. -/
inductive Ev where
  | forwardHTTP : Backend → Ev
  | forwardWS : Backend → Ev
  | markDead : String → Ev
  | respond : Nat → Ev
deriving DecidableEq

/-- The room-scoped tail of `lb` (`main.go`): split the path on `/`, parse
segment 2 as the room id (`strconv.Atoi`, error discarded, so a
non-numeric segment yields 0), sticky-select via `GetPeer`, forward on
the resolved scheme — and then fall through to the trailing
`http.Error(w, "Service not available", 503)` of `lb`, which the source
reaches because this branch has no `return` after forwarding.  (A path
reaching this point contains `/room/` or `/ws/`, hence splits into at
least 3 segments, so the source's `s[2]` cannot panic; `getD` never takes
its default.) -/
def lbRoom (s : ServerPool) (path : List Char) (ws : Bool) : Except String (List Ev) :=
  let parts := splitOnChar '/' path
  let roomId := atoi (parts.getD 2 [])
  match GetPeer s roomId with
  | .error e => .error e
  | .ok none => .ok [Ev.respond 503]
  | .ok (some peer) =>
    .ok [(if ws then Ev.forwardWS peer else Ev.forwardHTTP peer), Ev.respond 503]

/-- One pass of the dispatcher `lb` (`main.go`), with forwarding treated
as an opaque event; the retry protocol that wraps a failing forward is
modelled separately by `lbAllFail`.  Returns the ordered writes/forwards
the handler performs, or a Go panic.  `apiPref` is the `API_PREFIX`
environment value, `attCtx` the request's attempts context entry. -/
def lb (apiPref : List Char) (s : ServerPool) (attCtx : Option Nat) (path : List Char) :
    Except String (List Ev) :=
  if GetAttemptsFromContext attCtx > 3 then .ok [Ev.respond 503]
  else if path = apiPref ++ ("/room").data then
    match (GetNextPeer s).1 with
    | some peer => .ok [Ev.forwardHTTP peer]
    | none => .ok [Ev.respond 503]
  else if roomActionMatch path then lbRoom s path true
  else if roomConnMatch path then lbRoom s path false
  else .ok [Ev.respond 404]

/-- Number of forwards `proxy.ServeHTTP` performs on a request all of
whose forwards fail, entered with retry-context value `r`
(`createProxy`'s ErrorHandler in `main.go`): one forward, then, while the
retry counter is below 3, another forward with the counter incremented. -/
def serveFailCount (r : Nat) : Nat :=
  if r < 3 then 1 + serveFailCount (r + 1) else 1
termination_by 3 - r
decreasing_by omega

/-- The target URL captured by a backend's WS reverse proxy: `main.go`
builds the pool URL as `"http" + secure + "://" + tok` and the WS proxy's
target as `"ws" + secure + "://" + tok` from the same token, i.e. the
pool URL with its leading `http` replaced by `ws`.  `MarkBackendStatus`
compares this captured string against the backends' pool URLs. -/
def wsProxyURL (url : String) : String := ("ws") ++ url.drop 4

/-- The retry/failure protocol of `createProxy`'s ErrorHandler together
with the dispatcher re-entry it performs (`main.go`), specialised to a
logical request all of whose forwards fail.  `sel` is the dispatcher's
selection step for this request's path (round-robin `GetNextPeer`, or the
sticky `GetPeer` on its parsed room id); `ws` is the resolved forwarding
scheme; `ft` records whether the room-scoped branch of `lb` is taken,
whose missing `return` falls through to an extra trailing 503 write after
the nested re-dispatch unwinds.  `a` and `r` are the request's context
values as read by `GetAttemptsFromContext` / `GetRetryFromContext`:
re-dispatch carries `attempts + 1` and leaves the retry entry at the
value that exhausted the per-backend loop.  On exhaustion the handler
calls `MarkBackendStatus` with the URL its proxy captured at
construction: the backend's pool URL for the plain scheme, but the
`ws://` target (`wsProxyURL`) for the WS scheme — a string that matches
no backend's `http://` pool URL, so the WS-scheme mark is a no-op. -/
def lbAllFail (sel : ServerPool → Option Backend × ServerPool) (ws ft : Bool)
    (a r : Nat) (s : ServerPool) : List Ev × ServerPool :=
  if a > 3 then ([Ev.respond 503], s)
  else
    match sel s with
    | (none, s₁) => ([Ev.respond 503], s₁)
    | (some b, s₁) =>
      let fwd := if ws then Ev.forwardWS b else Ev.forwardHTTP b
      let u := if ws then wsProxyURL b.URL else b.URL
      let r₁ := if r < 3 then 3 else r
      let s₂ := MarkBackendStatus s₁ u false
      let rest := lbAllFail sel ws ft (a + 1) r₁ s₂
      (List.replicate (serveFailCount r) fwd ++ Ev.markDead u :: rest.1
          ++ (if ft then [Ev.respond 503] else []),
        rest.2)
termination_by 4 - a
decreasing_by omega

/-- The dispatcher's selection step for a room-scoped path whose parsed
room id is `roomId`: sticky `GetPeer`, which reads the pool and leaves it
unchanged.  (A `GetPeer` panic is conflated with `none` here; the
theorems below only apply this at inputs where `GetPeer` does not
panic.) -/
def selSticky (roomId : Int) (p : ServerPool) : Option Backend × ServerPool :=
  (match GetPeer p roomId with
    | .ok b? => b?
    | .error _ => none, p)

/-- The all-fail dispatch of a freshly arrived request: `lbAllFail` entered
with the context values a request carries before any re-dispatch
(`GetAttemptsFromContext`/`GetRetryFromContext` of an empty context). -/
def lbAllFailFresh (sel : ServerPool → Option Backend × ServerPool) (ws ft : Bool)
    (s : ServerPool) : List Ev :=
  (lbAllFail sel ws ft (GetAttemptsFromContext none) (GetRetryFromContext none) s).1

/-- Is this event a forwarding attempt? -/
def isForward : Ev → Bool
  | Ev.forwardHTTP _ => true
  | Ev.forwardWS _ => true
  | _ => false

/-- Number of forwarding attempts in a dispatcher trace. -/
def countForwards (tr : List Ev) : Nat := tr.countP isForward

/-- The backend of the first forwarding attempt in a trace, if any. -/
def firstForward : List Ev → Option Backend
  | [] => none
  | Ev.forwardHTTP b :: _ => some b
  | Ev.forwardWS b :: _ => some b
  | _ :: t => firstForward t

/-- The URL of the first backend marked dead in a trace, if any. -/
def firstMark : List Ev → Option String
  | [] => none
  | Ev.markDead u :: _ => some u
  | _ :: t => firstMark t

/-- Iterated round-robin selection: the results of `n` successive
`GetNextPeer` calls, threading the pool state. -/
def selectionsN : ServerPool → Nat → List (Option Backend) × ServerPool
  | s, 0 => ([], s)
  | s, n + 1 =>
    let p := GetNextPeer s
    let rest := selectionsN p.2 n
    (p.1 :: rest.1, rest.2)

/-- Spec-shape definition, following the spec's path table: a path of the
shape `/room/<id>(/...)` read as an anchored whole-path pattern — `/room/`,
one or more digits, then either nothing or a `/` introducing a non-empty
remainder.  Used to compare the spec's wording against the source's
unanchored matcher `roomActionMatch`. -/
def digitsThenTail : List Char → Bool
  | [] => true
  | c :: rest => if isDigit c then digitsThenTail rest else (decide (c = '/') && decide (rest ≠ []))

/-- Spec-shape definition (anchored whole-path form of `/room/<id>(/...)`,
see `digitsThenTail`). -/
def shapeRoomAction : List Char → Bool
  | '/' :: 'r' :: 'o' :: 'o' :: 'm' :: '/' :: c :: rest => isDigit c && digitsThenTail rest
  | _ => false

/-- Spec-shape definition, following the spec's path table: a path of the
shape `/ws/<id>` read as an anchored whole-path pattern — `/ws/` followed
by digits and nothing else. -/
def shapeRoomConn : List Char → Bool
  | '/' :: 'w' :: 's' :: '/' :: rest => decide (rest ≠ []) && rest.all isDigit
  | _ => false

/-- Concrete fixture backend A. -/
def bA : Backend := ⟨("http://a"), true⟩

/-- Concrete fixture backend B. -/
def bB : Backend := ⟨("http://b"), true⟩

/-- Concrete fixture backend C. -/
def bC : Backend := ⟨("http://c"), true⟩

/-- Fixture pool [A, B, C], all alive, cursor 0. -/
def pool3 : ServerPool := ⟨[bA, bB, bC], 0⟩

/-- Fixture pool [A, B, C] with B marked dead, cursor 0. -/
def pool3Bdead : ServerPool := ⟨[bA, ⟨("http://b"), false⟩, bC], 0⟩

/-- Fixture pool with the single backend A, cursor 0. -/
def pool1 : ServerPool := ⟨[bA], 0⟩

/-- Fixture pool whose only backend is dead. -/
def poolDead : ServerPool := ⟨[⟨("http://a"), false⟩], 0⟩

/-- Fixture pool [A, B, C], all alive, with the `uint64` cursor two steps
below its wrap-around point. -/
def poolWrap : ServerPool := ⟨[bA, bB, bC], 2 ^ 64 - 2⟩

/-- Claim C1 (code bug): the source's sticky boundary check is
`serverId <= len(s.backends)`.  On a pool of size 1, roomId 10001 gives
`serverId = 1`, equal to the pool size: the check passes and the slice
index panics, where the claim (and the spec's corrected contract) require
`none`.  One step further (roomId 20001, `serverId = 2 > 1`) the source
does return `none`, so the divergence is exactly at index = pool size. -/
theorem C1_sticky_boundary_eval :
    GetPeer pool1 10001 = .error ("runtime error: index out of range")
      ∧ GetPeer pool1 20001 = .ok none := by
  exact ⟨rfl, rfl⟩

/-- Claim C3 (code bug): on the room-connection path `/ws/1` with backend A
selected and the forward succeeding, the dispatcher still falls through to
`http.Error(w, "Service not available", 503)`: the trace after the
forward contains a further 503 write, where the claim (and the spec's
step 5, "on forwarding success: terminal") says nothing more is written. -/
theorem C3_fallthrough_eval :
    lb [] pool1 none (("/ws/1").data)
        = .ok [Ev.forwardHTTP bA, Ev.respond 503]
      ∧ lb [] pool3 none (("/room/5/start").data)
        = .ok [Ev.forwardWS bA, Ev.respond 503] := by
  exact ⟨rfl, rfl⟩

/-- Claim C4, counterexample: with pool [A, B, C], all alive and cursor 0,
the first round-robin selection is B — not A as the claim states — because
`NextIndex` pre-increments the cursor before reading it. -/
theorem C4_counterexample :
    (GetNextPeer pool3).1 = some bB ∧ bB ≠ bA := by
  exact ⟨rfl, by decide⟩

/-- Claim C4 as amended: with pool [A, B, C], all alive and cursor 0,
successive room-creation selections return B, then C, then A, then B —
the insertion-order cycle entered one position past the starting cursor,
since the cursor is incremented before being read. -/
theorem C4_amended_rotation :
    (selectionsN pool3 4).1 = [some bB, some bC, some bA, some bB] := by
  rfl

/-- Claim C5, counterexample: a fresh request (no context entries) reads
attempts = 1, not 0: `GetAttemptsFromContext` defaults to 1. -/
theorem C5_counterexample :
    ¬ (GetAttemptsFromContext none = 0 ∧ GetRetryFromContext none = 0) := by
  decide

/-- Claim C5 as amended: on a freshly arrived request the attempts counter
reads 1 (the source's default for a missing context entry) and the retries
counter reads 0. -/
theorem C5_amended_fresh_counters :
    GetAttemptsFromContext none = 1 ∧ GetRetryFromContext none = 0 := by
  decide

/-- Claim C9: with pool [A, B, C], B dead and cursor 0, the next two
round-robin selections return C and then A, and after the first of them
the cursor is stored at C's position (index 2), because C was not the
backend at the raw next index. -/
theorem C9_skip_dead :
    (GetNextPeer pool3Bdead).1 = some bC
      ∧ (GetNextPeer pool3Bdead).2.current = 2
      ∧ (GetNextPeer (GetNextPeer pool3Bdead).2).1 = some bA := by
  exact ⟨rfl, rfl, rfl⟩

/-- Claim C10: on any non-empty pool, `GetPeer` at roomId 0 — the value
`strconv.Atoi` yields when the id segment fails to parse — computes
`serverId = (0 - 1) / 10000 = 0` by Go's truncating division and returns
the backend at position 0 rather than `none`. -/
theorem C10_roomid_zero (s : ServerPool) (h : s.backends ≠ []) :
    GetPeer s 0 = .ok s.backends.head? := by
  have hlen : 0 < s.backends.length := List.length_pos.mpr h
  have hdiv : Int.tdiv (0 - 1) 10000 = 0 := by decide
  unfold GetPeer
  rw [hdiv]
  have hle : (0 : Int) ≤ (s.backends.length : Int) := by positivity
  rw [if_pos hle]
  unfold goIndex
  have hcond : (0 : Int) ≤ 0 ∧ (0 : Int).toNat < s.backends.length := ⟨le_refl 0, by simpa using hlen⟩
  rw [dif_pos hcond]
  simp only [Except.map]
  rw [← List.get?_zero, List.get?_eq_get hlen]
  rfl

/-- Witness for C10 at the one-backend fixture pool. -/
theorem C10_roomid_zero_w :
    pool1.backends ≠ [] ∧ GetPeer pool1 0 = .ok pool1.backends.head? :=
  ⟨by decide, C10_roomid_zero pool1 (by decide)⟩

/-- Claim C6, counterexample: the path `/x/ws/9` is not the room-creation
path (with empty API prefix), is not of the shape `/room/<id>(/...)` and
is not of the shape `/ws/<id>`, yet the dispatcher forwards it instead of
answering 404: Go regexp matching is unanchored, so `/ws/[0-9]` matches
inside the path, segment 2 (`ws`) parses to roomId 0, and the request is
forwarded to backend 0. -/
theorem C6_counterexample :
    ((("/x/ws/9").data ≠ ([] : List Char) ++ ("/room").data)
        ∧ shapeRoomAction (("/x/ws/9").data) = false
        ∧ shapeRoomConn (("/x/ws/9").data) = false)
      ∧ lb [] pool1 none (("/x/ws/9").data)
          = .ok [Ev.forwardHTTP bA, Ev.respond 503] :=
  ⟨by decide, rfl⟩

/-- Claim C6 as amended: every fresh request whose path differs from the
room-creation path and contains no substring matching `/room/<digit...>`
and no substring matching `/ws/<digit>` (the source's matchers are
unanchored) receives exactly a 404 response and is never forwarded to any
backend. -/
theorem C6_amended_404 (apiPref : List Char) (s : ServerPool) (path : List Char)
    (h1 : path ≠ apiPref ++ ("/room").data)
    (h2 : roomActionMatch path = false)
    (h3 : roomConnMatch path = false) :
    lb apiPref s none path = .ok [Ev.respond 404] := by
  unfold lb
  simp [GetAttemptsFromContext, h1, h2, h3]

/-- Witness for the amended C6 at the path `/abc`. -/
theorem C6_amended_404_w :
    ((("/abc").data ≠ ([] : List Char) ++ ("/room").data)
        ∧ roomActionMatch (("/abc").data) = false
        ∧ roomConnMatch (("/abc").data) = false)
      ∧ lb [] pool1 none (("/abc").data) = .ok [Ev.respond 404] :=
  ⟨by decide, C6_amended_404 [] pool1 (("/abc").data) (by decide) (by decide) (by decide)⟩

/-- If the scan loop of `GetNextPeer` finds a position, the backend stored
there is alive. -/
theorem findAliveIdx_alive (bs : List Backend) :
    ∀ k i j, findAliveIdx bs i k = some j →
      ∃ b, bs.get? (j % bs.length) = some b ∧ b.Alive = true := by
  intro k
  induction k with
  | zero => intro i j h; simp [findAliveIdx] at h
  | succ k ih =>
    intro i j h
    unfold findAliveIdx at h
    cases hg : bs.get? (i % bs.length) with
    | none => rw [hg] at h; exact absurd h (by simp)
    | some b =>
      rw [hg] at h
      dsimp only at h
      by_cases hb : b.Alive = true
      · rw [if_pos hb] at h
        obtain rfl := Option.some.inj h
        exact ⟨b, hg, hb⟩
      · rw [if_neg hb] at h
        exact ih (i + 1) j h

/-- If every backend of the pool is dead, the scan loop of `GetNextPeer`
finds nothing. -/
theorem findAliveIdx_none (bs : List Backend)
    (hdead : ∀ b ∈ bs, b.Alive = false) :
    ∀ k i, findAliveIdx bs i k = none := by
  intro k
  induction k with
  | zero => intro i; rfl
  | succ k ih =>
    intro i
    unfold findAliveIdx
    cases hg : bs.get? (i % bs.length) with
    | none => rfl
    | some b =>
      have hb : b.Alive = false := hdead b (List.get?_mem hg)
      simp [hb, ih (i + 1)]

/-- Claim C8: on a non-empty pool, `GetNextPeer` never returns a backend
whose liveness flag is false, and when every backend's flag is false it
returns none.  (The non-emptiness hypothesis reflects the spec's startup
invariant; on an empty pool the source would panic on `% 0`.) -/
theorem C8_liveness (s : ServerPool) (_hne : s.backends ≠ []) :
    (∀ b, (GetNextPeer s).1 = some b → b.Alive = true)
      ∧ ((∀ b ∈ s.backends, b.Alive = false) → (GetNextPeer s).1 = none) := by
  constructor
  · intro b hb
    unfold GetNextPeer at hb
    dsimp only at hb
    cases hf : findAliveIdx (NextIndex s).2.backends (NextIndex s).1 (NextIndex s).2.backends.length with
    | none => rw [hf] at hb; exact absurd hb (by simp)
    | some i =>
      rw [hf] at hb
      dsimp only at hb
      obtain ⟨b', hg, hal⟩ := findAliveIdx_alive _ _ _ _ hf
      rw [hg] at hb
      obtain rfl := Option.some.inj hb
      exact hal
  · intro hdead
    have hdead' : ∀ b ∈ (NextIndex s).2.backends, b.Alive = false := by
      simpa [NextIndex] using hdead
    unfold GetNextPeer
    dsimp only
    rw [findAliveIdx_none _ hdead' _ _]

/-- Witness for C8: at the fixture with B dead the returned backend C is
alive, and at the all-dead fixture the selection is none. -/
theorem C8_liveness_w :
    (pool3Bdead.backends ≠ []
        ∧ poolDead.backends ≠ []
        ∧ (∀ b ∈ poolDead.backends, b.Alive = false))
      ∧ bC.Alive = true
      ∧ (GetNextPeer poolDead).1 = none :=
  ⟨⟨by decide, by decide, by decide⟩,
    (C8_liveness pool3Bdead (by decide)).1 bC rfl,
    (C8_liveness poolDead (by decide)).2 (by decide)⟩

/-- The per-backend retry loop performs exactly one forward once the retry
counter is exhausted. -/
theorem serveFailCount_ge3 (r : Nat) (h : 3 ≤ r) : serveFailCount r = 1 := by
  rw [serveFailCount.eq_def]
  have hr : ¬ r < 3 := by omega
  simp [hr]

/-- The per-backend retry loop performs four forwards from a fresh retry
counter: the initial forward plus three retries. -/
theorem serveFailCount_zero : serveFailCount 0 = 4 := by
  rw [serveFailCount.eq_def, serveFailCount.eq_def, serveFailCount.eq_def,
    serveFailCount.eq_def]
  norm_num

/-- The forward event emitted for a backend is a forward on either scheme. -/
theorem isForward_fwd (ws : Bool) (b : Backend) :
    isForward (if ws then Ev.forwardWS b else Ev.forwardHTTP b) = true := by
  cases ws <;> rfl

/-- `countForwards` distributes over append. -/
theorem countForwards_append (l₁ l₂ : List Ev) :
    countForwards (l₁ ++ l₂) = countForwards l₁ + countForwards l₂ := by
  simp [countForwards]

/-- `countForwards` of a replicated forward event. -/
theorem countForwards_replicate (n : Nat) (e : Ev) (he : isForward e = true) :
    countForwards (List.replicate n e) = n := by
  induction n with
  | zero => rfl
  | succ n ih => simp [countForwards, List.replicate_succ, List.countP_cons, he] at ih ⊢; omega

/-- A mark event does not count as a forward. -/
theorem countForwards_cons_mark (u : String) (l : List Ev) :
    countForwards (Ev.markDead u :: l) = countForwards l := by
  simp [countForwards, List.countP_cons, isForward]

/-- A respond event does not count as a forward. -/
theorem countForwards_ite_respond (ft : Bool) :
    countForwards (if ft then [Ev.respond 503] else []) = 0 := by
  cases ft <;> simp [countForwards, isForward]

/-- Every all-fail dispatch trace ends with the terminal 503 write. -/
theorem lbAllFail_ends (sel : ServerPool → Option Backend × ServerPool) (ws ft : Bool) :
    ∀ k a r s, 4 - a ≤ k →
      ∃ l, (lbAllFail sel ws ft a r s).1 = l ++ [Ev.respond 503] := by
  intro k
  induction k with
  | zero =>
    intro a r s hk
    have ha : a > 3 := by omega
    rw [lbAllFail.eq_def, if_pos ha]
    exact ⟨[], rfl⟩
  | succ k ih =>
    intro a r s hk
    rw [lbAllFail.eq_def]
    by_cases ha : a > 3
    · rw [if_pos ha]
      exact ⟨[], rfl⟩
    · rw [if_neg ha]
      rcases hsel : sel s with ⟨bo, s₁⟩
      cases bo with
      | none =>
        exact ⟨[], rfl⟩
      | some b =>
        dsimp only
        obtain ⟨l, hl⟩ := ih (a + 1) (if r < 3 then 3 else r)
          (MarkBackendStatus s₁ (if ws then wsProxyURL b.URL else b.URL) false) (by omega)
        rw [hl]
        cases ft with
        | true =>
          simp only [if_pos rfl]
          exact ⟨_, rfl⟩
        | false =>
          refine ⟨List.replicate (serveFailCount r)
            (if ws then Ev.forwardWS b else Ev.forwardHTTP b)
              ++ Ev.markDead (if ws then wsProxyURL b.URL else b.URL) :: l, ?_⟩
          simp

/-- Once the request's retry counter is exhausted, each remaining
dispatcher round forwards at most once, so the all-fail trace from
attempts value `a` holds at most `4 - a` forwards. -/
theorem lbAllFail_count_exhausted (sel : ServerPool → Option Backend × ServerPool)
    (ws ft : Bool) :
    ∀ k a r s, 4 - a ≤ k → 3 ≤ r →
      countForwards (lbAllFail sel ws ft a r s).1 ≤ 4 - a := by
  intro k
  induction k with
  | zero =>
    intro a r s hk hr
    have ha : a > 3 := by omega
    rw [lbAllFail.eq_def, if_pos ha]
    simp [countForwards, isForward]
  | succ k ih =>
    intro a r s hk hr
    rw [lbAllFail.eq_def]
    by_cases ha : a > 3
    · rw [if_pos ha]
      simp [countForwards, isForward]
    · rw [if_neg ha]
      rcases hsel : sel s with ⟨bo, s₁⟩
      cases bo with
      | none =>
        simp [countForwards, isForward]
      | some b =>
        dsimp only
        rw [if_neg (show ¬ r < 3 by omega)]
        rw [countForwards_append, countForwards_append, countForwards_cons_mark,
          countForwards_replicate _ _ (isForward_fwd ws b),
          countForwards_ite_respond, serveFailCount_ge3 r hr]
        have hrec := ih (a + 1) r
          (MarkBackendStatus s₁ (if ws then wsProxyURL b.URL else b.URL) false) (by omega) hr
        omega

/-- The scan loop of `GetNextPeer` stops at its starting position when the
backend there is alive. -/
theorem findAliveIdx_first (bs : List Backend) (i k : Nat) (b : Backend)
    (hk : 0 < k) (hg : bs.get? (i % bs.length) = some b) (hb : b.Alive = true) :
    findAliveIdx bs i k = some i := by
  cases k with
  | zero => omega
  | succ k =>
    unfold findAliveIdx
    rw [hg]
    dsimp only
    rw [if_pos hb]

/-- With every backend alive and no `uint64` wrap at this step,
`GetNextPeer` returns the backend one position past the cursor and leaves
the cursor incremented by exactly one. -/
theorem GetNextPeer_allAlive (s : ServerPool) (hne : s.backends ≠ [])
    (halive : ∀ b ∈ s.backends, b.Alive = true) (hc : s.current + 1 < 2 ^ 64) :
    GetNextPeer s = (s.backends.get? ((s.current + 1) % s.backends.length),
      { s with current := s.current + 1 }) := by
  have hlen : 0 < s.backends.length := List.length_pos.mpr hne
  have hcur : (s.current + 1) % 2 ^ 64 = s.current + 1 := Nat.mod_eq_of_lt hc
  have hnext : (s.current + 1) % s.backends.length < s.backends.length :=
    Nat.mod_lt _ hlen
  have hgg : s.backends.get? (((s.current + 1) % s.backends.length) % s.backends.length)
      = some (s.backends.get ⟨(s.current + 1) % s.backends.length, hnext⟩) := by
    rw [Nat.mod_eq_of_lt hnext]
    exact List.get?_eq_get hnext
  have hb : (s.backends.get ⟨(s.current + 1) % s.backends.length, hnext⟩).Alive = true :=
    halive _ (List.get_mem _ _ _)
  unfold GetNextPeer NextIndex
  dsimp only
  rw [hcur]
  rw [findAliveIdx_first s.backends ((s.current + 1) % s.backends.length)
    s.backends.length _ hlen hgg hb]
  dsimp only
  rw [if_pos rfl, Nat.mod_eq_of_lt hnext]

/-- With every backend alive and the cursor `n` steps clear of the
`uint64` wrap point, `n` successive selections read off the pool in
insertion-order cycle starting one past the cursor, and the cursor
advances by exactly `n`. -/
theorem selectionsN_allAlive (L : List Backend) (hne : L ≠ [])
    (halive : ∀ b ∈ L, b.Alive = true) :
    ∀ n c, c + n < 2 ^ 64 →
      (selectionsN ⟨L, c⟩ n).1
          = (List.range n).map (fun k => L.get? ((c + 1 + k) % L.length))
        ∧ (selectionsN ⟨L, c⟩ n).2 = ⟨L, c + n⟩ := by
  intro n
  induction n with
  | zero => intro c _; exact ⟨rfl, rfl⟩
  | succ n ih =>
    intro c hc
    have h1 : GetNextPeer ⟨L, c⟩ = (L.get? ((c + 1) % L.length), ⟨L, c + 1⟩) :=
      GetNextPeer_allAlive ⟨L, c⟩ hne halive (show c + 1 < 2 ^ 64 by omega)
    have h2 : selectionsN ⟨L, c⟩ (n + 1)
        = ((GetNextPeer ⟨L, c⟩).1 :: (selectionsN (GetNextPeer ⟨L, c⟩).2 n).1,
            (selectionsN (GetNextPeer ⟨L, c⟩).2 n).2) := rfl
    rw [h2, h1]
    dsimp only
    constructor
    · rw [(ih (c + 1) (by omega)).1, List.range_succ_eq_map]
      simp only [List.map_cons, List.map_map]
      congr 1
      apply List.map_congr_left
      intro a _
      simp only [Function.comp_apply]
      have hx : c + 1 + 1 + a = c + 1 + Nat.succ a := by omega
      rw [hx]
    · rw [(ih (c + 1) (by omega)).2]
      congr 1
      omega

/-- The rotation of a list, mapped into options, is the range-indexed
cyclic read-off used by `selectionsN_allAlive`. -/
theorem rotate_map_get? (L : List Backend) (r : Nat) (_hr : r < L.length) :
    (L.rotate r).map some
      = (List.range L.length).map (fun k => L.get? ((r + k) % L.length)) := by
  apply List.ext_get?_iff.mpr
  intro n
  by_cases hn : n < L.length
  · have hm : (n + r) % L.length < L.length := Nat.mod_lt _ (by omega)
    rw [List.get?_map, List.get?_rotate hn, List.get?_eq_get hm]
    rw [List.get?_eq_getElem?, List.getElem?_map, List.getElem?_range hn]
    dsimp only [Option.map]
    rw [Nat.add_comm r n, List.get?_eq_get hm]
  · have hLn : L.length ≤ n := by omega
    rw [List.get?_eq_none.mpr (by simpa using hLn),
      List.get?_eq_none.mpr (by simpa using hLn)]

/-- Claim C7, counterexample: the `uint64` cursor wraps.  With pool
[A, B, C], all alive and the cursor at `2 ^ 64 - 2`, three consecutive
selections return A, A, B — backend A twice and backend C never — because
the increment wraps to 0 between the first and second selection and
`2 ^ 64` is not a multiple of 3. -/
theorem C7_counterexample :
    (∀ b ∈ poolWrap.backends, b.Alive = true)
      ∧ poolWrap.backends.length = 3
      ∧ (selectionsN poolWrap 3).1 = [some bA, some bA, some bB]
      ∧ bC ∈ poolWrap.backends
      ∧ some bC ∉ (selectionsN poolWrap 3).1 := by
  exact ⟨by decide, rfl, rfl, by decide, by decide⟩

/-- Claim C7 as amended: for every pool with all backends alive whose
cursor sits at least `N` steps below the `uint64` wrap point
(`current + N < 2 ^ 64`, where `N` is the pool size), `N` consecutive
round-robin selections are exactly the pool rotated to start one past the
cursor — each backend exactly once, in the fixed cyclic order given by
insertion order.  At the wrap point this can fail (see the
counterexample), though reaching it takes on the order of `2 ^ 64`
selections. -/
theorem C7_amended_cycle (s : ServerPool) (hne : s.backends ≠ [])
    (halive : ∀ b ∈ s.backends, b.Alive = true)
    (hwrap : s.current + s.backends.length < 2 ^ 64) :
    (selectionsN s s.backends.length).1
        = (s.backends.rotate ((s.current + 1) % s.backends.length)).map some
      ∧ (s.backends.rotate ((s.current + 1) % s.backends.length)).Perm s.backends := by
  obtain ⟨L, c⟩ := s
  have hne2 : L ≠ [] := hne
  have halive2 : ∀ b ∈ L, b.Alive = true := halive
  have hwrap2 : c + L.length < 2 ^ 64 := hwrap
  have hlen : 0 < L.length := List.length_pos.mpr hne2
  show (selectionsN ⟨L, c⟩ L.length).1 = (L.rotate ((c + 1) % L.length)).map some
    ∧ (L.rotate ((c + 1) % L.length)).Perm L
  constructor
  · rw [(selectionsN_allAlive L hne2 halive2 L.length c hwrap2).1,
      rotate_map_get? L ((c + 1) % L.length) (Nat.mod_lt _ hlen)]
    apply List.map_congr_left
    intro a _
    congr 1
    conv_rhs => rw [Nat.mod_add_mod]
  · exact List.rotate_perm L ((c + 1) % L.length)

/-- Witness for the amended C7 at the all-alive three-backend fixture:
the three selections are B, C, A — the pool rotated by one. -/
theorem C7_amended_cycle_w :
    (pool3.backends ≠ []
        ∧ (∀ b ∈ pool3.backends, b.Alive = true)
        ∧ pool3.current + pool3.backends.length < 2 ^ 64)
      ∧ (selectionsN pool3 pool3.backends.length).1
          = (pool3.backends.rotate ((pool3.current + 1) % pool3.backends.length)).map some
      ∧ (pool3.backends.rotate ((pool3.current + 1) % pool3.backends.length)).Perm
          pool3.backends :=
  ⟨⟨by decide, by decide, by decide⟩,
    C7_amended_cycle pool3 (by decide) (by decide) (by decide)⟩

/-- One non-terminal round of `lbAllFail` whose selection succeeds,
written out: used to evaluate concrete runs. -/
theorem lbAllFail_step (sel : ServerPool → Option Backend × ServerPool)
    (ws ft : Bool) (a r : Nat) (s s₁ : ServerPool) (b : Backend)
    (ha : ¬ a > 3) (hsel : sel s = (some b, s₁)) :
    lbAllFail sel ws ft a r s
      = (List.replicate (serveFailCount r) (if ws then Ev.forwardWS b else Ev.forwardHTTP b)
            ++ Ev.markDead (if ws then wsProxyURL b.URL else b.URL)
              :: (lbAllFail sel ws ft (a + 1) (if r < 3 then 3 else r)
                  (MarkBackendStatus s₁ (if ws then wsProxyURL b.URL else b.URL) false)).1
            ++ (if ft then [Ev.respond 503] else []),
        (lbAllFail sel ws ft (a + 1) (if r < 3 then 3 else r)
            (MarkBackendStatus s₁ (if ws then wsProxyURL b.URL else b.URL) false)).2) := by
  rw [lbAllFail.eq_def, if_neg ha, hsel]

/-- Claim C2, counterexample: a room-action request (WS scheme, roomId 1,
pool [A, B, C] all alive) all of whose forwards fail.  Backend A is the
first — and only — backend whose retries are exhausted: the trace shows
the exhaustion mark, but it carries the WS proxy's captured target
`ws://a`, which matches no backend's pool URL, so the final pool is the
initial pool and A ends up still alive — not marked dead as the claim
states. -/
theorem C2_counterexample :
    firstForward (lbAllFailFresh (selSticky 1) true true pool3) = some bA
      ∧ firstMark (lbAllFailFresh (selSticky 1) true true pool3) = some ("ws://a")
      ∧ (∀ b ∈ pool3.backends, b.URL ≠ ("ws://a"))
      ∧ (lbAllFail (selSticky 1) true true (GetAttemptsFromContext none)
            (GetRetryFromContext none) pool3).2 = pool3
      ∧ (∀ b ∈ pool3.backends, b.Alive = true) := by
  have hsel : selSticky 1 pool3 = (some bA, pool3) := rfl
  have hu : (if true then wsProxyURL bA.URL else bA.URL) = ("ws://a") := rfl
  have hmark : MarkBackendStatus pool3 ("ws://a") false = pool3 := by decide
  have h4 : lbAllFail (selSticky 1) true true 4 3 pool3 = ([Ev.respond 503], pool3) := by
    rw [lbAllFail.eq_def, if_pos (by norm_num)]
  have h3 : lbAllFail (selSticky 1) true true 3 3 pool3
      = ([Ev.forwardWS bA, Ev.markDead ("ws://a"), Ev.respond 503, Ev.respond 503],
          pool3) := by
    rw [lbAllFail_step (selSticky 1) true true 3 3 pool3 pool3 bA (by norm_num) hsel]
    rw [hu, hmark]
    simp [serveFailCount_ge3, h4]
  have h2 : lbAllFail (selSticky 1) true true 2 3 pool3
      = ([Ev.forwardWS bA, Ev.markDead ("ws://a"), Ev.forwardWS bA, Ev.markDead ("ws://a"),
          Ev.respond 503, Ev.respond 503, Ev.respond 503], pool3) := by
    rw [lbAllFail_step (selSticky 1) true true 2 3 pool3 pool3 bA (by norm_num) hsel]
    rw [hu, hmark]
    simp [serveFailCount_ge3, h3]
  have h1 : lbAllFail (selSticky 1) true true 1 0 pool3
      = ([Ev.forwardWS bA, Ev.forwardWS bA, Ev.forwardWS bA, Ev.forwardWS bA,
          Ev.markDead ("ws://a"), Ev.forwardWS bA, Ev.markDead ("ws://a"),
          Ev.forwardWS bA, Ev.markDead ("ws://a"),
          Ev.respond 503, Ev.respond 503, Ev.respond 503, Ev.respond 503], pool3) := by
    rw [lbAllFail_step (selSticky 1) true true 1 0 pool3 pool3 bA (by norm_num) hsel]
    rw [hu, hmark]
    simp [serveFailCount_zero, h2, List.replicate]
  refine ⟨?_, ?_, by decide, ?_, by decide⟩
  · show firstForward (lbAllFail (selSticky 1) true true 1 0 pool3).1 = some bA
    rw [h1]
    rfl
  · show firstMark (lbAllFail (selSticky 1) true true 1 0 pool3).1 = some ("ws://a")
    rw [h1]
    rfl
  · show (lbAllFail (selSticky 1) true true 1 0 pool3).2 = pool3
    rw [h1]

/-- Claim C2 as amended: a logical request all of whose forwards fail
performs at most 9 forwarding attempts in total before a terminal 503
(the source in fact performs at most 6: four on the first dispatcher
round, whose retry context then stays exhausted, plus one on each of the
two remaining rounds), the trace ends with the 503 write, and on
exhaustion the handler marks via the URL its proxy captured: the first
forwarded backend's pool URL for plain-scheme forwards — marking that
backend dead — but the `ws://` proxy target for WS-scheme forwards,
which matches no backend's `http://` pool URL, so the mark is then a
no-op (see the counterexample).  `sel` ranges over the dispatcher's
selection step for the request's path, `ws` over the resolved forwarding
scheme, and `ft` over whether the fall-through room-scoped branch is the
one taken. -/
theorem C2_amended_retry_bound (sel : ServerPool → Option Backend × ServerPool)
    (ws ft : Bool) (s : ServerPool) :
    countForwards (lbAllFailFresh sel ws ft s) ≤ 9
      ∧ (lbAllFailFresh sel ws ft s).getLast? = some (Ev.respond 503)
      ∧ firstMark (lbAllFailFresh sel ws ft s)
          = Option.map (fun b => if ws then wsProxyURL b.URL else b.URL)
              (firstForward (lbAllFailFresh sel ws ft s)) := by
  refine ⟨?_, ?_, ?_⟩
  · unfold lbAllFailFresh GetAttemptsFromContext GetRetryFromContext
    rw [lbAllFail.eq_def, if_neg (show ¬ (1 : Nat) > 3 by norm_num)]
    rcases hsel : sel s with ⟨bo, s₁⟩
    cases bo with
    | none => simp [countForwards, isForward]
    | some b =>
      dsimp only
      rw [if_pos (show (0 : Nat) < 3 by norm_num)]
      rw [countForwards_append, countForwards_append, countForwards_cons_mark,
        countForwards_replicate _ _ (isForward_fwd ws b),
        countForwards_ite_respond, serveFailCount_zero]
      have hrec := lbAllFail_count_exhausted sel ws ft 4 (1 + 1) 3
        (MarkBackendStatus s₁ (if ws then wsProxyURL b.URL else b.URL) false)
        (by omega) (by omega)
      omega
  · unfold lbAllFailFresh
    obtain ⟨l, hl⟩ := lbAllFail_ends sel ws ft 4
      (GetAttemptsFromContext none) (GetRetryFromContext none) s (by omega)
    rw [hl]
    exact List.getLast?_concat l
  · unfold lbAllFailFresh GetAttemptsFromContext GetRetryFromContext
    rw [lbAllFail.eq_def, if_neg (show ¬ (1 : Nat) > 3 by norm_num)]
    rcases hsel : sel s with ⟨bo, s₁⟩
    cases bo with
    | none => rfl
    | some b =>
      dsimp only
      rw [serveFailCount_zero]
      cases ws with
      | false => simp [firstForward, firstMark, List.replicate]
      | true => simp [firstForward, firstMark, List.replicate]
